import Mathlib

/-!
Shallow embedding of the salticidae peer-to-peer network layer
(`src/include/salticidae/network.h`) and proofs about its behaviour.

The embedding models the dispatcher-owned state of a `PeerNetwork` object:
the `id2peer` / `id2upeer` tables, the per-connection records reachable from
them, and the observable side channels (messages handed to `send_msg`, the
recoverable-error callback, the `unknown_peer_cb` queue).  Heap references to
`Peer` objects become table entries keyed by `NetAddr`; references to
connections become `ConnId` keys into a connection table, so that the C++
pointer comparisons (`conn != p->conn`, `this != p->conn.get()`) become
`ConnId` comparisons.  Undefined behaviour in the source (dereferencing a
null `conn_t`, dereferencing an end iterator, a failed `assert`) is modelled
by returning `none`.

Times (`conn_timeout`, ping periods, retry delays) are rationals; the
randomized values produced by `gen_rand_timeout` are passed in as explicit
arguments, since only their placement, not their distribution, matters for
the claims below.
-/

namespace Salticidae

/-- IPv4 network address: 32-bit ip and 16-bit port (`netaddr.h`). -/
structure NetAddr where
  ip : Nat
  port : Nat
deriving DecidableEq, Repr

/-- A default-constructed `NetAddr` (`0.0.0.0:0`) is the null address. -/
def NetAddr.is_null (a : NetAddr) : Bool := a.ip == 0 && a.port == 0

/-- Connection mode (`ConnPool::Conn`): we originated / we accepted / terminal. -/
inductive ConnMode where
  | active
  | passive
  | dead
deriving DecidableEq, Repr

/-- Identity resolution policy of the peer network. -/
inductive IdentityMode where
  | ip_based
  | ip_port_based
deriving DecidableEq, Repr

/-- Connections are heap objects in the source; we key them by an id so that
pointer identity becomes id equality. -/
abbrev ConnId := Nat

/-- The peer-layer view of one connection (`PeerNetwork::Conn`).
`ev_timeout` models the worker-owned `TimerEvent`: `none` means the handle
was never installed, `some none` installed but not armed, `some (some t)`
armed for `t`. -/
structure ConnState where
  addr : NetAddr
  mode : ConnMode
  peer_id : NetAddr
  ev_timeout : Option (Option Rat)
deriving DecidableEq, Repr

/-- One `Peer` record (`PeerNetwork::Peer`).  `ev_ping_timer` / `ev_retry_timer`
hold the armed period (`none` = not armed; the `TimerEvent` handles themselves
always exist once the Peer is constructed). -/
structure Peer where
  addr : NetAddr
  conn : Option ConnId
  ping_timer_ok : Bool
  pong_msg_ok : Bool
  connected : Bool
  ev_ping_timer : Option Rat
  ev_retry_timer : Option Rat
deriving DecidableEq, Repr

/-- The `Peer` constructor `Peer(addr, conn, ec)`: it sets `connected(false)`
and leaves both handshake flags uninitialized; we pick `false` for the
uninitialized flags (no claim below depends on their initial value). -/
def mkPeer (addr : NetAddr) (conn : Option ConnId) : Peer :=
  { addr := addr, conn := conn, ping_timer_ok := false, pong_msg_ok := false,
    connected := false, ev_ping_timer := none, ev_retry_timer := none }

/-- Framed wire message (`MsgBase`): header `(opcode, length, checksum)` plus
payload bytes.  `msg.h` is not under `src/`; the layout is modelled from the
spec (§4.1): 1-byte opcode, 32-bit little-endian length and checksum. -/
structure Msg where
  opcode : Nat
  length : Nat
  checksum : Nat
  payload : List Nat
deriving DecidableEq, Repr

/-- Messages handed to `send_msg` by the peer layer. -/
inductive SentMsg where
  | ping (port : Nat)
  | pong (port : Nat)
  | app (m : Msg)
deriving DecidableEq, Repr

/-- Recoverable errors of the peer network (`PeerNetworkError`). -/
inductive PNError where
  | peer_already_exists
  | peer_not_exist
deriving DecidableEq, Repr

/-! ### Association-list maps

`std::unordered_map` becomes an association list whose operations mirror the
`find` / `insert` / `erase` calls of the source.  The source only inserts a
key after checking it is absent, so plain cons is a faithful `insert`. -/

/-- `find`: first binding of a key. -/
def afind {K V : Type} [DecidableEq K] : List (K × V) → K → Option V
  | [], _ => none
  | (k, v) :: rest, k2 => if k = k2 then some v else afind rest k2

/-- Replace the binding of a key (mutation through a map iterator / pointer). -/
def aset {K V : Type} [DecidableEq K] : List (K × V) → K → V → List (K × V)
  | [], _, _ => []
  | (k, v) :: rest, k2, v2 =>
      if k = k2 then (k, v2) :: rest else (k, v) :: aset rest k2 v2

/-- `erase`: remove the binding of a key. -/
def aerase {K V : Type} [DecidableEq K] : List (K × V) → K → List (K × V)
  | [], _ => []
  | (k, v) :: rest, k2 => if k = k2 then rest else (k, v) :: aerase rest k2

/-- Dispatcher-owned state of one `PeerNetwork` instance, together with its
observable outputs. -/
structure PNState where
  id2peer : List (NetAddr × Peer)
  id2upeer : List (NetAddr × Peer)
  conns : List (ConnId × ConnState)
  listen_port : Nat
  id_mode : IdentityMode
  allow_unknown_peer : Bool
  conn_timeout : Rat
  /-- messages handed to `send_msg`, most recent first -/
  sent : List (SentMsg × ConnId)
  /-- errors delivered to the `recoverable_error` callback, most recent first -/
  recoverable : List PNError
  /-- identities queued for `unknown_peer_cb` on the user loop -/
  unknown_cb : List NetAddr
  /-- fresh id source standing in for `_connect` allocating a new connection -/
  next_conn : ConnId
deriving DecidableEq, Repr

/-- `conn->disp_terminate()`: the connection transitions to `DEAD`. -/
def disp_terminate (conns : List (ConnId × ConnState)) (cid : ConnId) :
    List (ConnId × ConnState) :=
  match afind conns cid with
  | none => conns
  | some c => aset conns cid { c with mode := ConnMode.dead }

/-- `get_peer(addr)`: look in `id2peer`, then in `id2upeer`. -/
def get_peer (s : PNState) (k : NetAddr) : Option Peer :=
  match afind s.id2peer k with
  | some p => some p
  | none => afind s.id2upeer k

/-- Write back a `Peer` that the source mutates through the pointer returned
by `get_peer`: the entry lives in `id2peer` if the key is there, otherwise in
`id2upeer`. -/
def update_peer (s : PNState) (k : NetAddr) (p : Peer) : PNState :=
  if (afind s.id2peer k).isSome then { s with id2peer := aset s.id2peer k p }
  else { s with id2upeer := aset s.id2upeer k p }

/-- `tcall_reset_timeout`: posted to the owning worker; if the connection's
`ev_timeout` handle exists, re-arm it for `t`, else do nothing. -/
def tcall_reset_timeout (s : PNState) (cid : ConnId) (t : Rat) : PNState :=
  match afind s.conns cid with
  | none => s
  | some c =>
    match c.ev_timeout with
    | none => s
    | some _ => { s with conns := aset s.conns cid { c with ev_timeout := some (some t) } }

/-- `Peer::send_ping`: clear both handshake flags, re-arm the connection's
`ev_timeout` to `conn_timeout`, hand `MsgPing(listen_port)` to `send_msg`.
The source calls it through the peer's `conn` field; a null `conn` would be a
null dereference (`none`). -/
def send_ping (s : PNState) (k : NetAddr) : Option PNState :=
  match get_peer s k with
  | none => none
  | some p =>
    match p.conn with
    | none => none
    | some cid =>
      let p1 := { p with ping_timer_ok := false, pong_msg_ok := false }
      let s1 := update_peer s k p1
      let s2 := tcall_reset_timeout s1 cid s.conn_timeout
      some { s2 with sent := (SentMsg.ping s2.listen_port, cid) :: s2.sent }

/-- `Peer::reset_ping_timer`: re-arm the ping timer for a fresh randomized
period `r` (`gen_rand_timeout(ping_period)`). -/
def reset_ping_timer (s : PNState) (k : NetAddr) (r : Rat) : Option PNState :=
  match get_peer s k with
  | none => none
  | some p => some (update_peer s k { p with ev_ping_timer := some r })

/-- `Peer::ping_timer` (the ping-timer callback): set `ping_timer_ok`; if the
pong of the current cycle already arrived, re-arm the ping timer and send the
next ping. -/
def ping_timer (s : PNState) (k : NetAddr) (r : Rat) : Option PNState :=
  match get_peer s k with
  | none => none
  | some p =>
    let s1 := update_peer s k { p with ping_timer_ok := true }
    if p.pong_msg_ok then
      (reset_ping_timer s1 k r).bind (fun s2 => send_ping s2 k)
    else some s1

/-- The id `check_new_conn` resolves for a connection: a null `peer_id` is
replaced by `(conn.addr.ip, announced port)`. -/
def resolved_id (c : ConnState) (port : Nat) : NetAddr :=
  if c.peer_id.is_null then { ip := c.addr.ip, port := port } else c.peer_id

/-- Shared tail of `check_new_conn` once a `Peer` has been resolved (the code
from `auto p = it->second.get();` on).  `id` is the key the resolved peer is
stored under, `c` the connection (with `peer_id` already assigned), `r` the
randomized ping period used if a ping timer is armed. -/
def check_new_conn_resolved (s : PNState) (id : NetAddr) (p : Peer)
    (cid : ConnId) (c : ConnState) (r : Rat) : Option (PNState × Bool) :=
  if p.connected then
    if p.conn ≠ some cid then
      some ({ s with conns := disp_terminate s.conns cid }, true)
    else
      some (s, false)
  else
    -- Peer::reset_conn(conn): terminate a different old connection, rebind,
    -- clear the armed ping timer
    let step :=
      if p.conn ≠ some cid then
        let s1 :=
          match p.conn with
          | some old => { s with conns := disp_terminate s.conns old }
          | none => s
        ({ p with addr := c.addr, conn := some cid, ev_ping_timer := none }, s1)
      else ({ p with ev_ping_timer := none }, s)
    let p1 := step.1
    let s1 := step.2
    let p2 := { p1 with connected := true }
    -- reset_ping_timer; send_ping (inlined: both act on the peer stored at `id`)
    let p3 := { p2 with ev_ping_timer := some r }
    let p4 := { p3 with ping_timer_ok := false, pong_msg_ok := false }
    let s2 := update_peer s1 id p4
    let s3 := tcall_reset_timeout s2 cid s1.conn_timeout
    some ({ s3 with sent := (SentMsg.ping s3.listen_port, cid) :: s3.sent }, false)

/-- `PeerNetwork::check_new_conn(conn, port)`.  Returns `some (s, handled)`;
`none` models the failed `assert` (null `peer_id` outside `IP_PORT_BASED`
mode) and the undefined dereference on the unknown-peer path: when the id is
already in `id2upeer` the source leaves `it` equal to `id2peer.end()` and
`it->second` dereferences the end iterator. -/
def check_new_conn (s : PNState) (cid : ConnId) (port : Nat) (r : Rat) :
    Option (PNState × Bool) :=
  match afind s.conns cid with
  | none => none
  | some c0 =>
    -- step 1: a null peer_id is only legal in IP_PORT_BASED mode (assert)
    let step1 : Option (ConnState × PNState) :=
      if c0.peer_id.is_null then
        if s.id_mode = IdentityMode.ip_port_based then
          let c1 := { c0 with peer_id := { ip := c0.addr.ip, port := port } }
          some (c1, { s with conns := aset s.conns cid c1 })
        else none
      else some (c0, s)
    match step1 with
    | none => none
    | some (c, s1) =>
      let id := c.peer_id
      match afind s1.id2peer id with
      | some p => check_new_conn_resolved s1 id p cid c r
      | none =>
        let s2 := { s1 with unknown_cb := id :: s1.unknown_cb }
        if s2.allow_unknown_peer then
          match afind s2.id2upeer id with
          | none =>
            let p := mkPeer c.addr none
            let s3 := { s2 with id2upeer := (id, p) :: s2.id2upeer }
            check_new_conn_resolved s3 id p cid c r
          | some _ => none
        else
          some ({ s2 with conns := disp_terminate s2.conns cid }, true)

/-- `PeerNetwork::start_active_conn(addr)`: no-op when the peer is already
connected; otherwise originate a fresh ACTIVE connection (modelled from the
spec: `ConnPool::_connect` lives in `conn.h`, not under `src/`; it yields a
new connection in ACTIVE mode bound to `addr`), bind it to the peer and set
its `peer_id` per `id_mode`.  A missing peer is a null dereference. -/
def start_active_conn (s : PNState) (addr : NetAddr) : Option PNState :=
  match get_peer s addr with
  | none => none
  | some p =>
    if p.connected then some s
    else
      let cid := s.next_conn
      let pid := if s.id_mode = IdentityMode.ip_based then { addr with port := 0 } else addr
      let c : ConnState :=
        { addr := addr, mode := ConnMode.active, peer_id := pid, ev_timeout := none }
      let s1 := { s with conns := (cid, c) :: s.conns, next_conn := s.next_conn + 1 }
      some (update_peer s1 addr { p with conn := some cid })

/-- `PeerNetwork::add_peer(addr)` (the dispatcher task body).
The source's promotion guard reads `auto it2 = id2upeer.find(addr);
if (it2 != id2peer.end())` — an iterator of `id2upeer` compared with the
*other* map's `end()`.  On the standard libraries this code targets
(libstdc++ / libc++) every `unordered_map` `end()` iterator is the null-node
sentinel, so the comparison evaluates exactly like `it2 != id2upeer.end()`,
i.e. `addr` is a key of `id2upeer`; the model uses that reading. -/
def add_peer (s : PNState) (addr : NetAddr) : Option PNState :=
  match afind s.id2peer addr with
  | some _ => some { s with recoverable := PNError.peer_already_exists :: s.recoverable }
  | none =>
    match afind s.id2upeer addr with
    | some p =>
      -- move to the known peer set
      start_active_conn
        { s with id2upeer := aerase s.id2upeer addr, id2peer := (addr, p) :: s.id2peer }
        addr
    | none =>
      start_active_conn
        { s with id2peer := (addr, mkPeer addr none) :: s.id2peer } addr

/-- `PeerNetwork::del_peer(addr)` (the dispatcher task body).  The source
calls `it->second->conn->disp_terminate()` with no null check on `conn`; a
known peer with no bound connection is a null dereference (`none`). -/
def del_peer (s : PNState) (addr : NetAddr) : Option PNState :=
  match afind s.id2peer addr with
  | none => some { s with recoverable := PNError.peer_not_exist :: s.recoverable }
  | some p =>
    match p.conn with
    | none => none
    | some cid =>
      some { s with conns := disp_terminate s.conns cid,
                    id2peer := aerase s.id2peer addr }

/-- Result of the synchronous `get_peer_conn` call: the returned `conn_t`
(`none` = a null connection), the exception re-raised to the caller, and the
recoverable-error channel after the call. -/
structure ConnResult where
  conn : Option ConnId
  rethrown : Option PNError
  recoverable : List PNError
deriving DecidableEq, Repr

/-- `PeerNetwork::get_peer_conn(addr)`: the task body catches
`PeerNetworkError` and feeds it to `recoverable_error` *without* storing it
into `err`; only other exceptions reach `err` and are re-raised.  So a
missing peer yields a null connection plus a recoverable-channel report. -/
def get_peer_conn (s : PNState) (addr : NetAddr) : ConnResult :=
  match get_peer s addr with
  | none =>
    { conn := none, rethrown := none,
      recoverable := PNError.peer_not_exist :: s.recoverable }
  | some p => { conn := p.conn, rethrown := none, recoverable := s.recoverable }

/-- `PeerNetwork::_multicast_msg` loop body: resolve and send in list order;
the first unresolved address throws `PEER_NOT_EXIST`, which the surrounding
catch feeds to the recoverable channel, abandoning the rest of the batch.
Sending through a peer whose `conn` is null would dereference null (`none`). -/
def multicast_msg (s : PNState) (m : Msg) : List NetAddr → Option PNState
  | [] => some s
  | addr :: rest =>
    match get_peer s addr with
    | none => some { s with recoverable := PNError.peer_not_exist :: s.recoverable }
    | some p =>
      match p.conn with
      | none => none
      | some cid =>
        multicast_msg { s with sent := (SentMsg.app m, cid) :: s.sent } m rest

/-- `PeerNetwork::Conn::on_teardown` (dispatcher): resolve the connection's
`peer_id`; do nothing if no peer resolves or the peer's bound connection is a
different one; otherwise drop the ping timer, clear `connected` and arm the
retry timer for `retry` (`gen_conn_timeout()`). -/
def on_teardown (s : PNState) (cid : ConnId) (retry : Rat) : Option PNState :=
  match afind s.conns cid with
  | none => none
  | some c =>
    match get_peer s c.peer_id with
    | none => some s
    | some p =>
      if p.conn ≠ some cid then some s
      else
        some (update_peer s c.peer_id
          { p with ev_ping_timer := none, connected := false, ev_retry_timer := some retry })

/-- `PeerNetwork::msg_ping` dispatcher task: ignore a DEAD connection, run
`check_new_conn`, answer with `MsgPong(listen_port)` unless handled. -/
def msg_ping (s : PNState) (cid : ConnId) (port : Nat) (r : Rat) : Option PNState :=
  match afind s.conns cid with
  | none => none
  | some c =>
    if c.mode = ConnMode.dead then some s
    else
      match check_new_conn s cid port r with
      | none => none
      | some (s2, true) => some s2
      | some (s2, false) =>
        some { s2 with sent := (SentMsg.pong s2.listen_port, cid) :: s2.sent }

/-- `PeerNetwork::msg_pong` dispatcher task: ignore a DEAD connection,
discard the pong if no peer resolves, run `check_new_conn`; then set
`pong_msg_ok` on the peer the pointer `p` refers to (the entry under the
connection's original `peer_id`), and if the ping period already elapsed,
re-arm the ping timer and send the next ping. -/
def msg_pong (s : PNState) (cid : ConnId) (port : Nat) (r : Rat) : Option PNState :=
  match afind s.conns cid with
  | none => none
  | some c =>
    if c.mode = ConnMode.dead then some s
    else
      let k := c.peer_id
      match get_peer s k with
      | none => some s
      | some _ =>
        match check_new_conn s cid port r with
        | none => none
        | some (s2, true) => some s2
        | some (s2, false) =>
          match get_peer s2 k with
          | none => none
          | some p =>
            let s3 := update_peer s2 k { p with pong_msg_ok := true }
            if p.ping_timer_ok then
              (reset_ping_timer s3 k r).bind (fun s4 => send_ping s4 k)
            else some s3

/-! ### The framed-message decoder (`MsgNetwork::Conn::on_read`)

The byte layout of the header is modelled from the spec (§4.1), since
`msg.h` is not under `src/`: 1-byte opcode, 32-bit little-endian length,
32-bit little-endian checksum, then `length` payload bytes.  The checksum
function itself is an arbitrary pure function of the payload (`ck`). -/

/-- Header size: `sizeof(opcode) + 8` with a 1-byte opcode. -/
def header_size : Nat := 9

/-- 32-bit little-endian encoding. -/
def le32 (n : Nat) : List Nat :=
  [n % 256, n / 256 % 256, n / 256 ^ 2 % 256, n / 256 ^ 3 % 256]

/-- Read a 32-bit little-endian value from (exactly) four bytes. -/
def rd32 (bs : List Nat) : Nat :=
  match bs with
  | [b0, b1, b2, b3] => b0 + 256 * (b1 + 256 * (b2 + 256 * b3))
  | _ => 0

/-- Modelled from the spec: `Msg(DataStream)` parses the header bytes
(`msg.h` is not under `src/`). -/
def parse_header (bs : List Nat) : Msg :=
  { opcode := bs.headD 0,
    length := rd32 ((bs.drop 1).take 4),
    checksum := rd32 ((bs.drop 5).take 4),
    payload := [] }

/-- Modelled from the spec: `Msg::serialize` writes the header then the
payload. -/
def Msg.serialize (m : Msg) : List Nat :=
  m.opcode % 256 :: (le32 m.length ++ le32 m.checksum ++ m.payload)

/-- Decoder state of one connection (`MsgNetwork::Conn::MsgState`). -/
inductive MsgState where
  | header
  | payload
deriving DecidableEq, Repr

/-- The `while (self_ref)` loop of `on_read`: consume a header once
`header_size` bytes are buffered, then the payload once `length` bytes are
buffered; on checksum mismatch the message is dropped and the function
returns (the remaining buffered bytes are left for the next `on_read`);
otherwise the message is enqueued (`delivered`) and the loop continues.
Returns (decoder state, partial message, remaining buffer, delivered
messages in order). -/
def on_read_loop (ck : List Nat → Nat) :
    MsgState → Msg → List Nat → MsgState × Msg × List Nat × List Msg
  | MsgState.header, m, buf =>
    if h : buf.length < header_size then (MsgState.header, m, buf, [])
    else
      on_read_loop ck MsgState.payload (parse_header (buf.take header_size))
        (buf.drop header_size)
  | MsgState.payload, m, buf =>
    if h2 : buf.length < m.length then (MsgState.payload, m, buf, [])
    else
      let msg := { m with payload := buf.take m.length }
      let rest := buf.drop m.length
      if ck msg.payload ≠ msg.checksum then
        -- "checksums do not match, dropping the message": return from on_read
        (MsgState.header, msg, rest, [])
      else
        let r := on_read_loop ck MsgState.header msg rest
        (r.1, r.2.1, r.2.2.1, msg :: r.2.2.2)
termination_by st m buf => buf.length + (match st with | MsgState.header => 0 | MsgState.payload => 1)
decreasing_by
  · simp only [List.length_drop, header_size] at *
    omega
  · simp only [List.length_drop] at *
    omega

/-- Fuel-indexed evaluator for `on_read_loop`, used only to compute concrete
runs of the decoder inside proofs (structural recursion on the fuel, so the
kernel can evaluate it); `on_read_fuel_spec` below shows it agrees with
`on_read_loop` whenever the fuel covers the buffer. -/
def on_read_fuel (ck : List Nat → Nat) :
    Nat → MsgState → Msg → List Nat → MsgState × Msg × List Nat × List Msg
  | 0, st, m, buf => (st, m, buf, [])
  | fuel + 1, MsgState.header, m, buf =>
    if buf.length < header_size then (MsgState.header, m, buf, [])
    else
      on_read_fuel ck fuel MsgState.payload (parse_header (buf.take header_size))
        (buf.drop header_size)
  | fuel + 1, MsgState.payload, m, buf =>
    if buf.length < m.length then (MsgState.payload, m, buf, [])
    else
      let msg := { m with payload := buf.take m.length }
      let rest := buf.drop m.length
      if ck msg.payload ≠ msg.checksum then
        (MsgState.header, msg, rest, [])
      else
        let r := on_read_fuel ck fuel MsgState.header msg rest
        (r.1, r.2.1, r.2.2.1, msg :: r.2.2.2)

/-- The message-network view of one connection: its mode plus the decoder
state owned by the worker. -/
structure MConn where
  mode : ConnMode
  msg_state : MsgState
  msg : Msg
  recv_buffer : List Nat
deriving DecidableEq, Repr

/-- `MsgNetwork::Conn::on_read`: run the decoder loop on the receive buffer;
the connection record is otherwise untouched (in particular `on_read` never
terminates the connection). -/
def MConn.on_read (ck : List Nat → Nat) (c : MConn) : MConn × List Msg :=
  let r := on_read_loop ck c.msg_state c.msg c.recv_buffer
  ({ c with msg_state := r.1, msg := r.2.1, recv_buffer := r.2.2.1 }, r.2.2.2)

/-! ### Keepalive traces

For the temporal claim about `send_ping` we run the two dispatcher events
that can trigger it on an established peer — the ping-timer callback
(`Peer::ping_timer`) and a PONG arrival (`msg_pong`) — and record, for each
event, whether it executed `send_ping` (observable as growth of `sent`). -/

/-- A keepalive event for one peer: its ping timer fires, or a PONG arrives
on its connection.  `r` is the randomized period used if a ping timer is
re-armed. -/
inductive KEvent where
  | timer_fire (r : Rat)
  | pong_recv (port : Nat) (r : Rat)
deriving DecidableEq, Repr

/-- Predicate: the event is a ping-timer firing. -/
def KEvent.is_timer : KEvent → Bool
  | KEvent.timer_fire _ => true
  | _ => false

/-- Predicate: the event is a PONG arrival. -/
def KEvent.is_pong : KEvent → Bool
  | KEvent.pong_recv _ _ => true
  | _ => false

/-- The flag that gates `send_ping` for this event: a timer firing sends only
if the cycle's pong already arrived, a pong sends only if the period already
elapsed. -/
def KEvent.trigger (e : KEvent) (p : Peer) : Bool :=
  match e with
  | KEvent.timer_fire _ => p.pong_msg_ok
  | KEvent.pong_recv _ _ => p.ping_timer_ok

/-- One keepalive step for the peer stored under `k`, whose bound connection
is `cid`. -/
def kstep (k : NetAddr) (cid : ConnId) (s : PNState) : KEvent → Option PNState
  | KEvent.timer_fire r => ping_timer s k r
  | KEvent.pong_recv port r => msg_pong s cid port r

/-- Run a list of keepalive events; alongside the final state, record for
each event whether it executed `send_ping` (the `sent` log grew). -/
def krun (k : NetAddr) (cid : ConnId) : PNState → List KEvent → Option (PNState × List Bool)
  | s, [] => some (s, [])
  | s, e :: rest =>
    match kstep k cid s e with
    | none => none
    | some s2 =>
      match krun k cid s2 rest with
      | none => none
      | some (s3, bs) => some (s3, decide (s.sent.length < s2.sent.length) :: bs)

/-- An established peer: `k` is a non-null identity bound in `id2peer` to a
connected peer whose connection is `cid`, and the connection record agrees
(`peer_id = k`, not DEAD, `ev_timeout` handle installed). -/
def KInv (s : PNState) (k : NetAddr) (cid : ConnId) : Prop :=
  k.is_null = false ∧
  (∃ p, afind s.id2peer k = some p ∧ p.connected = true ∧ p.conn = some cid) ∧
  (∃ c u, afind s.conns cid = some c ∧ c.peer_id = k ∧ c.mode ≠ ConnMode.dead ∧
    c.ev_timeout = some u)

/-! ### Concrete states used by witnesses and counterexamples -/

/-- A freshly constructed peer network with no peers and no connections. -/
def pn0 : PNState :=
  { id2peer := [], id2upeer := [], conns := [], listen_port := 10,
    id_mode := IdentityMode.ip_port_based, allow_unknown_peer := false,
    conn_timeout := 180, sent := [], recoverable := [], unknown_cb := [],
    next_conn := 5 }

/-- A sample peer identity. -/
def k1 : NetAddr := { ip := 1, port := 2 }

/-- An established connection to `k1` (id 0). -/
def conn_est : ConnState :=
  { addr := k1, mode := ConnMode.active, peer_id := k1, ev_timeout := some (some 180) }

/-- The peer record for `k1`, connected through connection 0. -/
def peer_est : Peer :=
  { addr := k1, conn := some 0, ping_timer_ok := false, pong_msg_ok := false,
    connected := true, ev_ping_timer := some 30, ev_retry_timer := none }

/-- A network with `k1` established through connection 0. -/
def s_est : PNState := { pn0 with id2peer := [(k1, peer_est)], conns := [(0, conn_est)] }

/-- `s_est` plus a newcomer passive connection (id 1) that also resolved to
`k1`. -/
def s_dup : PNState :=
  { s_est with conns :=
      [(0, conn_est),
       (1, { addr := { ip := 1, port := 9 }, mode := ConnMode.passive, peer_id := k1,
             ev_timeout := some (some 180) })] }

/-- A known peer whose outbound connect never bound a connection. -/
def s_nullconn : PNState := { pn0 with id2peer := [(k1, mkPeer k1 none)] }

/-- An unknown-peer entry for `k1` holding a live connection (id 3),
awaiting promotion by `add_peer`. -/
def s_unknown : PNState :=
  { pn0 with
    id2upeer := [(k1, { peer_est with conn := some 3 })],
    conns := [(3, { conn_est with mode := ConnMode.passive })] }

/-- IP_BASED network knowing peer `k1`, not yet connected. -/
def s_ipb : PNState :=
  { pn0 with id_mode := IdentityMode.ip_based, id2peer := [(k1, mkPeer k1 none)] }

/-- IP_BASED network with a live passive connection (id 0) whose `peer_id`
is still the null address: exactly the state in which the remote's first
PING arrives. -/
def c6_state : PNState :=
  { pn0 with
    id_mode := IdentityMode.ip_based,
    conns := [(0, { addr := { ip := 3, port := 7 }, mode := ConnMode.passive,
                    peer_id := { ip := 0, port := 0 }, ev_timeout := some (some 180) })] }

/-- A network with two known peers `(1,2)` and `(3,4)` bound to connections
0 and 7, used for the multicast witness. -/
def s_two : PNState :=
  { s_est with
    id2peer := [(k1, peer_est), ({ ip := 3, port := 4 }, { peer_est with conn := some 7 })],
    conns := [(0, conn_est), (7, { conn_est with addr := { ip := 3, port := 4 } })] }

/-- A concrete checksum function (the spec leaves the choice open: any pure
function of the payload). -/
def ck0 (bs : List Nat) : Nat := bs.foldl (fun a b => a + b) 0 % 4294967296

/-- A well-formed frame whose checksum matches under `ck0`. -/
def c5_f1 : Msg := { opcode := 1, length := 1, checksum := 5, payload := [5] }

/-- A frame whose stored checksum does not match its payload under `ck0`. -/
def c5_bad : Msg := { opcode := 2, length := 1, checksum := 9, payload := [6] }

/-- A second well-formed frame, arriving after the corrupted one. -/
def c5_f2 : Msg := { opcode := 3, length := 1, checksum := 7, payload := [7] }

/-- A live connection whose receive buffer holds a good frame, then a
corrupted frame, then another good frame. -/
def c5_conn0 : MConn :=
  { mode := ConnMode.passive, msg_state := MsgState.header,
    msg := { opcode := 0, length := 0, checksum := 0, payload := [] },
    recv_buffer := c5_f1.serialize ++ c5_bad.serialize ++ c5_f2.serialize }

/-! ### Association-list lemmas -/

theorem afind_eq_none_of_not_mem {K V : Type} [DecidableEq K]
    (m : List (K × V)) (k : K) (h : k ∉ m.map Prod.fst) : afind m k = none := by
  induction m with
  | nil => rfl
  | cons hd tl ih =>
    simp only [List.map_cons, List.mem_cons] at h
    push_neg at h
    obtain ⟨h1, h2⟩ := h
    unfold afind
    rw [if_neg (fun he => h1 he.symm)]
    exact ih h2

theorem afind_aset_self {K V : Type} [DecidableEq K]
    (m : List (K × V)) (k : K) (v : V) (h : (afind m k).isSome) :
    afind (aset m k v) k = some v := by
  induction m with
  | nil => simp [afind] at h
  | cons hd tl ih =>
    obtain ⟨k2, v2⟩ := hd
    by_cases hk : k2 = k
    · subst hk
      simp [afind, aset]
    · simp only [afind, aset, if_neg hk] at h ⊢
      exact ih h

theorem afind_aerase_self {K V : Type} [DecidableEq K]
    (m : List (K × V)) (k : K) (h : (m.map Prod.fst).Nodup) :
    afind (aerase m k) k = none := by
  induction m with
  | nil => rfl
  | cons hd tl ih =>
    obtain ⟨k2, v2⟩ := hd
    simp only [List.map_cons, List.nodup_cons] at h
    by_cases hk : k2 = k
    · subst hk
      simp only [aerase, if_pos rfl]
      exact afind_eq_none_of_not_mem tl k2 h.1
    · simp only [aerase, if_neg hk, afind]
      exact ih h.2

/-! ### Frame lemmas for state helpers -/

@[simp] theorem update_peer_conns (s : PNState) (k : NetAddr) (p : Peer) :
    (update_peer s k p).conns = s.conns := by
  unfold update_peer
  split <;> rfl

@[simp] theorem update_peer_sent (s : PNState) (k : NetAddr) (p : Peer) :
    (update_peer s k p).sent = s.sent := by
  unfold update_peer
  split <;> rfl

@[simp] theorem update_peer_listen_port (s : PNState) (k : NetAddr) (p : Peer) :
    (update_peer s k p).listen_port = s.listen_port := by
  unfold update_peer
  split <;> rfl

@[simp] theorem update_peer_conn_timeout (s : PNState) (k : NetAddr) (p : Peer) :
    (update_peer s k p).conn_timeout = s.conn_timeout := by
  unfold update_peer
  split <;> rfl

@[simp] theorem update_peer_recoverable (s : PNState) (k : NetAddr) (p : Peer) :
    (update_peer s k p).recoverable = s.recoverable := by
  unfold update_peer
  split <;> rfl

theorem update_peer_of_kp (s : PNState) (k : NetAddr) (p : Peer)
    (h : (afind s.id2peer k).isSome) :
    update_peer s k p = { s with id2peer := aset s.id2peer k p } := by
  unfold update_peer
  rw [if_pos h]

theorem update_peer_of_up (s : PNState) (k : NetAddr) (p : Peer)
    (h : afind s.id2peer k = none) :
    update_peer s k p = { s with id2upeer := aset s.id2upeer k p } := by
  unfold update_peer
  rw [if_neg (by simp [h])]

theorem get_peer_update_self (s : PNState) (k : NetAddr) (p0 p : Peer)
    (h : get_peer s k = some p0) :
    get_peer (update_peer s k p) k = some p := by
  unfold get_peer at h
  by_cases hk : (afind s.id2peer k).isSome
  · rw [update_peer_of_kp s k p hk]
    unfold get_peer
    simp only []
    rw [afind_aset_self s.id2peer k p hk]
  · rw [Option.not_isSome_iff_eq_none] at hk
    rw [update_peer_of_up s k p hk]
    unfold get_peer
    simp only []
    rw [hk] at h ⊢
    simp only [] at h ⊢
    exact afind_aset_self s.id2upeer k p (by rw [h]; rfl)

@[simp] theorem tcall_reset_timeout_id2peer (s : PNState) (cid : ConnId) (t : Rat) :
    (tcall_reset_timeout s cid t).id2peer = s.id2peer := by
  unfold tcall_reset_timeout
  split
  · rfl
  · split <;> rfl

@[simp] theorem tcall_reset_timeout_id2upeer (s : PNState) (cid : ConnId) (t : Rat) :
    (tcall_reset_timeout s cid t).id2upeer = s.id2upeer := by
  unfold tcall_reset_timeout
  split
  · rfl
  · split <;> rfl

@[simp] theorem tcall_reset_timeout_sent (s : PNState) (cid : ConnId) (t : Rat) :
    (tcall_reset_timeout s cid t).sent = s.sent := by
  unfold tcall_reset_timeout
  split
  · rfl
  · split <;> rfl

@[simp] theorem tcall_reset_timeout_listen_port (s : PNState) (cid : ConnId) (t : Rat) :
    (tcall_reset_timeout s cid t).listen_port = s.listen_port := by
  unfold tcall_reset_timeout
  split
  · rfl
  · split <;> rfl

@[simp] theorem tcall_reset_timeout_conn_timeout (s : PNState) (cid : ConnId) (t : Rat) :
    (tcall_reset_timeout s cid t).conn_timeout = s.conn_timeout := by
  unfold tcall_reset_timeout
  split
  · rfl
  · split <;> rfl

theorem tcall_reset_timeout_eq (s : PNState) (cid : ConnId) (t : Rat)
    (c : ConnState) (u : Option Rat)
    (hc : afind s.conns cid = some c) (hu : c.ev_timeout = some u) :
    tcall_reset_timeout s cid t =
      { s with conns := aset s.conns cid { c with ev_timeout := some (some t) } } := by
  unfold tcall_reset_timeout
  simp [hc, hu]

/-! ### Reduction lemmas for `check_new_conn` -/

theorem check_new_conn_resolved_bound (s : PNState) (id : NetAddr) (p : Peer)
    (cid : ConnId) (c : ConnState) (r : Rat)
    (hcon : p.connected = true) (he : p.conn = some cid) :
    check_new_conn_resolved s id p cid c r = some (s, false) := by
  unfold check_new_conn_resolved
  simp [hcon, he]

theorem check_new_conn_resolved_dup (s : PNState) (id : NetAddr) (p : Peer)
    (cid : ConnId) (c : ConnState) (r : Rat)
    (hcon : p.connected = true) (he : p.conn ≠ some cid) :
    check_new_conn_resolved s id p cid c r =
      some ({ s with conns := disp_terminate s.conns cid }, true) := by
  unfold check_new_conn_resolved
  simp [hcon, he]

theorem check_new_conn_eq_of_not_null (s : PNState) (cid : ConnId) (port : Nat)
    (r : Rat) (c : ConnState) (p : Peer)
    (hc : afind s.conns cid = some c) (hn : c.peer_id.is_null = false)
    (hp : afind s.id2peer c.peer_id = some p) :
    check_new_conn s cid port r = check_new_conn_resolved s c.peer_id p cid c r := by
  unfold check_new_conn
  simp [hc, hn, hp]

/-! ### Claim theorems -/

/-- Claim C9: `del_peer` reaches `disp_terminate` through the peer's `conn`
with no null check; for a known peer it is free of a null dereference exactly
when a connection is bound — with a bound connection it terminates that
connection and erases the entry, with no bound connection it dereferences
null. -/
theorem c9_del_peer_null_conn :
    (∀ (s : PNState) (addr : NetAddr) (p : Peer),
      afind s.id2peer addr = some p → p.conn = none →
      del_peer s addr = none) ∧
    (∀ (s : PNState) (addr : NetAddr) (p : Peer) (cid : ConnId),
      afind s.id2peer addr = some p → p.conn = some cid →
      del_peer s addr =
        some { s with conns := disp_terminate s.conns cid,
                      id2peer := aerase s.id2peer addr }) := by
  constructor
  · intro s addr p hp hc
    unfold del_peer
    simp [hp, hc]
  · intro s addr p cid hp hc
    unfold del_peer
    simp [hp, hc]

theorem c9_witness :
    del_peer s_nullconn k1 = none ∧
    del_peer s_est k1 =
      some { s_est with conns := disp_terminate s_est.conns 0,
                        id2peer := aerase s_est.id2peer k1 } :=
  ⟨c9_del_peer_null_conn.1 s_nullconn k1 (mkPeer k1 none) (by decide) (by decide),
   c9_del_peer_null_conn.2 s_est k1 peer_est 0 (by decide) (by decide)⟩

/-- Claim C10: `on_teardown` leaves the whole network state unchanged when
no peer resolves for the connection's `peer_id`, or when the resolved peer's
bound connection is a different one; only the teardown of the currently
bound connection clears `connected`, drops the ping timer and arms the retry
timer. -/
theorem c10_on_teardown_frame :
    (∀ (s : PNState) (cid : ConnId) (r : Rat) (c : ConnState),
      afind s.conns cid = some c → get_peer s c.peer_id = none →
      on_teardown s cid r = some s) ∧
    (∀ (s : PNState) (cid : ConnId) (r : Rat) (c : ConnState) (p : Peer),
      afind s.conns cid = some c → get_peer s c.peer_id = some p →
      p.conn ≠ some cid →
      on_teardown s cid r = some s) ∧
    (∀ (s : PNState) (cid : ConnId) (r : Rat) (c : ConnState) (p : Peer),
      afind s.conns cid = some c → get_peer s c.peer_id = some p →
      p.conn = some cid →
      on_teardown s cid r = some (update_peer s c.peer_id
        { p with ev_ping_timer := none, connected := false,
                 ev_retry_timer := some r })) := by
  refine ⟨?_, ?_, ?_⟩
  · intro s cid r c hc hp
    unfold on_teardown
    simp [hc, hp]
  · intro s cid r c p hc hp hne
    unfold on_teardown
    simp [hc, hp, hne]
  · intro s cid r c p hc hp he
    unfold on_teardown
    simp [hc, hp, he]

theorem c10_witness :
    on_teardown s_dup 1 2 = some s_dup ∧
    on_teardown s_est 0 2 = some (update_peer s_est k1
      { peer_est with ev_ping_timer := none, connected := false,
                      ev_retry_timer := some 2 }) :=
  ⟨c10_on_teardown_frame.2.1 s_dup 1 2
      { addr := { ip := 1, port := 9 }, mode := ConnMode.passive, peer_id := k1,
        ev_timeout := some (some 180) } peer_est
      (by decide) (by decide) (by decide),
   c10_on_teardown_frame.2.2 s_est 0 2 conn_est peer_est (by decide) (by decide) (by decide)⟩

/-- Claim C4 counterexample: on a network with no peer for `k1`, the
synchronous `get_peer_conn(k1)` re-raises nothing to the caller and returns
a null connection; the `PEER_NOT_EXIST` error only reaches the
recoverable-error callback.  This falsifies the claim that the caller
observes the error rather than a null connection. -/
theorem c4_counterexample :
    (get_peer_conn pn0 k1).rethrown = none ∧
    (get_peer_conn pn0 k1).conn = none ∧
    (get_peer_conn pn0 k1).recoverable = [PNError.peer_not_exist] := by
  refine ⟨by decide, by decide, by decide⟩

/-- Claim C4 (amended): for every address that resolves to no Peer,
`get_peer_conn` reports `PEER_NOT_EXIST` on the recoverable-error channel
and returns a null connection to the caller without re-raising — only
exceptions other than `PeerNetworkError` are re-raised. -/
theorem c4_get_peer_conn_recoverable :
    ∀ (s : PNState) (addr : NetAddr), get_peer s addr = none →
      get_peer_conn s addr =
        { conn := none, rethrown := none,
          recoverable := PNError.peer_not_exist :: s.recoverable } := by
  intro s addr h
  unfold get_peer_conn
  simp [h]

theorem c4_witness :
    get_peer_conn pn0 k1 =
      { conn := none, rethrown := none, recoverable := [PNError.peer_not_exist] } :=
  c4_get_peer_conn_recoverable pn0 k1 (by decide)

theorem afind_disp_terminate_self (conns : List (ConnId × ConnState)) (cid : ConnId)
    (c : ConnState) (h : afind conns cid = some c) :
    afind (disp_terminate conns cid) cid = some { c with mode := ConnMode.dead } := by
  unfold disp_terminate
  rw [h]
  exact afind_aset_self _ _ _ (by rw [h]; rfl)

theorem start_active_conn_kp_mem (s : PNState) (addr : NetAddr) (p : Peer)
    (hp : afind s.id2peer addr = some p) :
    ∃ s1, start_active_conn s addr = some s1 ∧ ∃ q, afind s1.id2peer addr = some q := by
  have hg : get_peer s addr = some p := by unfold get_peer; simp [hp]
  unfold start_active_conn
  rw [hg]
  by_cases hc : p.connected = true
  · simp only [hc, if_true]
    exact ⟨s, rfl, p, hp⟩
  · simp only [eq_false_of_ne_true hc, if_false]
    refine ⟨_, rfl, ?_⟩
    rw [update_peer_of_kp _ addr _ (by simp only []; rw [hp]; rfl)]
    exact ⟨_, afind_aset_self _ _ _ (by simp only []; rw [hp]; rfl)⟩

theorem add_peer_kp_mem (s : PNState) (addr : NetAddr) (s1 : PNState)
    (h : add_peer s addr = some s1) : ∃ q, afind s1.id2peer addr = some q := by
  unfold add_peer at h
  cases hfind : afind s.id2peer addr with
  | some p =>
    simp only [hfind, Option.some.injEq] at h
    subst h
    exact ⟨p, hfind⟩
  | none =>
    simp only [hfind] at h
    cases hup : afind s.id2upeer addr with
    | some p =>
      simp only [hup] at h
      obtain ⟨s1', hs1', q, hq⟩ :=
        start_active_conn_kp_mem
          { s with id2upeer := aerase s.id2upeer addr, id2peer := (addr, p) :: s.id2peer }
          addr p (by unfold afind; simp)
      rw [h] at hs1'
      simp only [Option.some.injEq] at hs1'
      subst hs1'
      exact ⟨q, hq⟩
    | none =>
      simp only [hup] at h
      obtain ⟨s1', hs1', q, hq⟩ :=
        start_active_conn_kp_mem
          { s with id2peer := (addr, mkPeer addr none) :: s.id2peer }
          addr (mkPeer addr none) (by unfold afind; simp)
      rw [h] at hs1'
      simp only [Option.some.injEq] at hs1'
      subst hs1'
      exact ⟨q, hq⟩

/-- Claim C8: after any completing `del_peer(A)`, a second `del_peer(A)`
reports `PEER_NOT_EXIST` on the recoverable channel and changes nothing
else; after any completing `add_peer(A)`, a second `add_peer(A)` reports
`PEER_ALREADY_EXISTS` and changes nothing else. -/
theorem c8_idempotence :
    (∀ (s : PNState) (addr : NetAddr) (s1 : PNState),
      (s.id2peer.map Prod.fst).Nodup → del_peer s addr = some s1 →
      del_peer s1 addr =
        some { s1 with recoverable := PNError.peer_not_exist :: s1.recoverable }) ∧
    (∀ (s : PNState) (addr : NetAddr) (s1 : PNState),
      add_peer s addr = some s1 →
      add_peer s1 addr =
        some { s1 with recoverable := PNError.peer_already_exists :: s1.recoverable }) := by
  constructor
  · intro s addr s1 hnd h
    unfold del_peer at h
    cases hfind : afind s.id2peer addr with
    | none =>
      simp only [hfind, Option.some.injEq] at h
      subst h
      unfold del_peer
      simp [hfind]
    | some p =>
      simp only [hfind] at h
      cases hc : p.conn with
      | none => exact Option.noConfusion (by simpa only [hc] using h)
      | some cid =>
        simp only [hc, Option.some.injEq] at h
        subst h
        unfold del_peer
        simp [afind_aerase_self s.id2peer addr hnd]
  · intro s addr s1 h
    obtain ⟨q, hq⟩ := add_peer_kp_mem s addr s1 h
    unfold add_peer
    simp [hq]

theorem c8_witness :
    del_peer { s_est with conns := disp_terminate s_est.conns 0,
                          id2peer := aerase s_est.id2peer k1 } k1 =
      some { { s_est with conns := disp_terminate s_est.conns 0,
                          id2peer := aerase s_est.id2peer k1 } with
             recoverable := [PNError.peer_not_exist] } ∧
    add_peer { pn0 with
        id2peer := [(k1, { mkPeer k1 none with conn := some 5 })],
        conns := [(5, { addr := k1, mode := ConnMode.active, peer_id := k1,
                        ev_timeout := none })],
        next_conn := 6 } k1 =
      some { { pn0 with
        id2peer := [(k1, { mkPeer k1 none with conn := some 5 })],
        conns := [(5, { addr := k1, mode := ConnMode.active, peer_id := k1,
                        ev_timeout := none })],
        next_conn := 6 } with recoverable := [PNError.peer_already_exists] } :=
  ⟨c8_idempotence.1 s_est k1 _ (by decide) (by decide),
   c8_idempotence.2 pn0 k1 _ (by decide)⟩

/-- Claim C2: when `addr` is in `unknown_peers` and not in `known_peers`,
`add_peer` moves the existing `Peer` record (its bound connection included)
into `known_peers`, removes it from `unknown_peers`, and then runs
`start_active_conn`; a brand-new `Peer` is inserted only when the address is
in neither table.  The source's promotion guard compares the `id2upeer`
iterator with `id2peer.end()`; see `add_peer` for the modelling of that
comparison. -/
theorem c2_add_peer_promotion :
    (∀ (s : PNState) (addr : NetAddr) (p : Peer),
      afind s.id2peer addr = none → afind s.id2upeer addr = some p →
      add_peer s addr =
        start_active_conn
          { s with id2upeer := aerase s.id2upeer addr,
                   id2peer := (addr, p) :: s.id2peer } addr) ∧
    (∀ (s : PNState) (addr : NetAddr) (p : Peer),
      (s.id2upeer.map Prod.fst).Nodup →
      afind s.id2peer addr = none → afind s.id2upeer addr = some p →
      p.connected = true →
      ∃ s1, add_peer s addr = some s1 ∧
        afind s1.id2peer addr = some p ∧ afind s1.id2upeer addr = none) ∧
    (∀ (s : PNState) (addr : NetAddr),
      afind s.id2peer addr = none → afind s.id2upeer addr = none →
      add_peer s addr =
        start_active_conn
          { s with id2peer := (addr, mkPeer addr none) :: s.id2peer } addr) := by
  refine ⟨?_, ?_, ?_⟩
  · intro s addr p h1 h2
    unfold add_peer
    rw [h1, h2]
  · intro s addr p hnd h1 h2 hcon
    have hstep : add_peer s addr =
        start_active_conn
          { s with id2upeer := aerase s.id2upeer addr,
                   id2peer := (addr, p) :: s.id2peer } addr := by
      unfold add_peer
      rw [h1, h2]
    have hg : get_peer
        { s with id2upeer := aerase s.id2upeer addr,
                 id2peer := (addr, p) :: s.id2peer } addr = some p := by
      unfold get_peer afind
      simp
    refine ⟨{ s with id2upeer := aerase s.id2upeer addr,
                     id2peer := (addr, p) :: s.id2peer }, ?_, ?_, ?_⟩
    · rw [hstep]
      unfold start_active_conn
      rw [hg]
      simp only [hcon, if_true]
    · unfold afind
      simp
    · exact afind_aerase_self s.id2upeer addr hnd
  · intro s addr h1 h2
    unfold add_peer
    rw [h1, h2]

theorem c2_witness :
    ∃ s1, add_peer s_unknown k1 = some s1 ∧
      afind s1.id2peer k1 = some { peer_est with conn := some 3 } ∧
      afind s1.id2upeer k1 = none :=
  c2_add_peer_promotion.2.1 s_unknown k1 { peer_est with conn := some 3 }
    (by decide) (by decide) (by decide) (by decide)

/-- Claim C7: `multicast_msg` resolves and sends in list order; the first
address resolving to no peer aborts the rest of the batch and reports
`PEER_NOT_EXIST` on the recoverable channel, while the sends already made
for earlier addresses (through connections `cids`, in order) remain. -/
theorem c7_multicast_fail_fast :
    ∀ (pre : List NetAddr) (s : PNState) (m : Msg) (a : NetAddr)
      (post : List NetAddr) (cids : List ConnId),
      pre.length = cids.length →
      (∀ q ∈ pre.zip cids, ∃ pr, get_peer s q.1 = some pr ∧ pr.conn = some q.2) →
      get_peer s a = none →
      multicast_msg s m (pre ++ a :: post) =
        some { s with
          sent := (cids.reverse.map (fun c => (SentMsg.app m, c))) ++ s.sent,
          recoverable := PNError.peer_not_exist :: s.recoverable } := by
  intro pre
  induction pre with
  | nil =>
    intro s m a post cids hlen hres ha
    cases cids with
    | nil =>
      unfold multicast_msg
      simp [ha]
    | cons c cs => exact absurd hlen (by simp)
  | cons b pre ih =>
    intro s m a post cids hlen hres ha
    cases cids with
    | nil => exact absurd hlen (by simp)
    | cons c cs =>
      obtain ⟨pr, hpr, hconn⟩ := hres (b, c) (by simp [List.zip_cons_cons])
      show multicast_msg s m (b :: (pre ++ a :: post)) = _
      unfold multicast_msg
      simp only [hpr, hconn]
      have hres2 : ∀ q ∈ pre.zip cs,
          ∃ pr2, get_peer { s with sent := (SentMsg.app m, c) :: s.sent } q.1 = some pr2 ∧
            pr2.conn = some q.2 := by
        intro q hq
        exact hres q (by simp [List.zip_cons_cons, hq])
      have := ih { s with sent := (SentMsg.app m, c) :: s.sent } m a post cs
        (by simpa using hlen) hres2 ha
      rw [this]
      simp [List.map_append]

theorem c7_witness :
    multicast_msg s_two { opcode := 1, length := 0, checksum := 0, payload := [] }
      ([k1] ++ { ip := 9, port := 9 } :: [{ ip := 3, port := 4 }]) =
      some { s_two with
        sent := [(SentMsg.app { opcode := 1, length := 0, checksum := 0, payload := [] }, 0)],
        recoverable := [PNError.peer_not_exist] } :=
  c7_multicast_fail_fast [k1] s_two
    { opcode := 1, length := 0, checksum := 0, payload := [] }
    { ip := 9, port := 9 } [{ ip := 3, port := 4 }] [0] (by decide)
    (by
      intro q hq
      simp only [List.zip_cons_cons, List.zip_nil_left, List.mem_singleton] at hq
      subst hq
      exact ⟨peer_est, by decide, by decide⟩)
    (by decide)

/-- Claim C1: whenever `check_new_conn` resolves a known peer `p` with
`p.connected`, then — with `p.conn` equal to the incoming connection — it
returns `false` ("already bound") leaving both peer tables (hence every
field of `p`) unchanged, and in fact the whole state unchanged unless the
call had to assign a null `peer_id` first; with `p.conn` a different
connection it terminates the newcomer (DEAD), returns `true` ("handled"),
and leaves both peer tables unchanged. -/
theorem c1_check_new_conn_connected :
    ∀ (s : PNState) (cid : ConnId) (port : Nat) (r : Rat) (c : ConnState) (p : Peer),
      afind s.conns cid = some c →
      (c.peer_id.is_null = true → s.id_mode = IdentityMode.ip_port_based) →
      afind s.id2peer (resolved_id c port) = some p →
      p.connected = true →
      ((p.conn = some cid →
        ∃ s1, check_new_conn s cid port r = some (s1, false) ∧
          s1.id2peer = s.id2peer ∧ s1.id2upeer = s.id2upeer ∧
          (c.peer_id.is_null = false → s1 = s)) ∧
      (p.conn ≠ some cid →
        ∃ s1, check_new_conn s cid port r = some (s1, true) ∧
          s1.id2peer = s.id2peer ∧ s1.id2upeer = s.id2upeer ∧
          ∃ c1, afind s1.conns cid = some c1 ∧ c1.mode = ConnMode.dead)) := by
  intro s cid port r c p hc hmode hp hcon
  by_cases hn : c.peer_id.is_null = true
  · -- the connection had no id yet: it is assigned (conn.addr.ip, port) first
    have hm := hmode hn
    have hres : resolved_id c port = { ip := c.addr.ip, port := port } := by
      unfold resolved_id
      rw [if_pos hn]
    rw [hres] at hp
    have hstep : check_new_conn s cid port r =
        check_new_conn_resolved
          { s with conns := aset s.conns cid { c with peer_id := { ip := c.addr.ip, port := port } } }
          { ip := c.addr.ip, port := port } p cid
          { c with peer_id := { ip := c.addr.ip, port := port } } r := by
      unfold check_new_conn
      simp only [hc, hn, if_true, hm, if_pos rfl]
      simp only [hp]
    constructor
    · intro he
      refine ⟨{ s with conns := aset s.conns cid { c with peer_id := { ip := c.addr.ip, port := port } } }, ?_, rfl, rfl, fun hfalse => absurd hn (by simp [hfalse])⟩
      rw [hstep]
      exact check_new_conn_resolved_bound _ _ _ _ _ _ hcon he
    · intro hne
      rw [hstep, check_new_conn_resolved_dup _ _ _ _ _ _ hcon hne]
      refine ⟨_, rfl, rfl, rfl, ?_⟩
      refine ⟨_, afind_disp_terminate_self _ cid _ (afind_aset_self s.conns cid _ (by rw [hc]; rfl)), rfl⟩
  · have hn' : c.peer_id.is_null = false := eq_false_of_ne_true hn
    have hres : resolved_id c port = c.peer_id := by
      unfold resolved_id
      rw [if_neg (by simp [hn'])]
    rw [hres] at hp
    have hstep := check_new_conn_eq_of_not_null s cid port r c p hc hn' hp
    constructor
    · intro he
      exact ⟨s, by rw [hstep]; exact check_new_conn_resolved_bound _ _ _ _ _ _ hcon he,
        rfl, rfl, fun _ => rfl⟩
    · intro hne
      rw [hstep, check_new_conn_resolved_dup _ _ _ _ _ _ hcon hne]
      exact ⟨_, rfl, rfl, rfl, _, afind_disp_terminate_self s.conns cid c hc, rfl⟩

theorem c1_witness :
    (∃ s1, check_new_conn s_dup 0 2 1 = some (s1, false) ∧
      s1.id2peer = s_dup.id2peer ∧ s1.id2upeer = s_dup.id2upeer ∧
      (conn_est.peer_id.is_null = false → s1 = s_dup)) ∧
    (∃ s1, check_new_conn s_dup 1 2 1 = some (s1, true) ∧
      s1.id2peer = s_dup.id2peer ∧ s1.id2upeer = s_dup.id2upeer ∧
      ∃ c1, afind s1.conns 1 = some c1 ∧ c1.mode = ConnMode.dead) :=
  ⟨(c1_check_new_conn_connected s_dup 0 2 1 conn_est peer_est
      (by decide) (by decide) (by decide) (by decide)).1 (by decide),
   (c1_check_new_conn_connected s_dup 1 2 1
      { addr := { ip := 1, port := 9 }, mode := ConnMode.passive, peer_id := k1,
        ev_timeout := some (some 180) } peer_est
      (by decide) (by decide) (by decide) (by decide)).2 (by decide)⟩

/-- Claim C6 counterexample: in `IP_BASED` mode a live passive connection
whose `peer_id` is still null receives its first PING; `check_new_conn`
reaches `assert(id_mode == IP_PORT_BASED)` with `id_mode = IP_BASED` and the
assertion fails (modelled as `none`).  Nothing on the passive path ever sets
`peer_id` from the PING's source IP, so the claimed behaviour does not exist
and the assertion does fail for a reachable connection. -/
theorem c6_counterexample :
    msg_ping c6_state 0 9 1 = none ∧ check_new_conn c6_state 0 9 1 = none := by
  exact ⟨by decide, by decide⟩

/-- Claim C6 (amended): in `IP_BASED` mode, active connections do receive
`peer_id = (addr.ip, 0)` at initiation in `start_active_conn`; but any
connection reaching `check_new_conn` with a null `peer_id` — which is the
state of every passive connection, since only `check_new_conn` and
`start_active_conn` ever assign `peer_id` — fails the
`id_mode == IP_PORT_BASED` assertion. -/
theorem c6_ip_based_identities :
    (∀ (s : PNState) (addr : NetAddr) (p : Peer),
      s.id_mode = IdentityMode.ip_based →
      get_peer s addr = some p → p.connected = false →
      ∃ s1, start_active_conn s addr = some s1 ∧
        afind s1.conns s.next_conn = some
          { addr := addr, mode := ConnMode.active,
            peer_id := { ip := addr.ip, port := 0 }, ev_timeout := none }) ∧
    (∀ (s : PNState) (cid : ConnId) (port : Nat) (r : Rat) (c : ConnState),
      afind s.conns cid = some c → c.peer_id.is_null = true →
      s.id_mode = IdentityMode.ip_based →
      check_new_conn s cid port r = none) := by
  constructor
  · intro s addr p hmode hg hcon
    unfold start_active_conn
    rw [hg]
    simp only [hcon, Bool.false_eq_true, if_false, hmode, if_pos rfl]
    refine ⟨_, rfl, ?_⟩
    rw [update_peer_conns]
    unfold afind
    simp
  · intro s cid port r c hc hn hmode
    unfold check_new_conn
    simp [hc, hn, hmode]

theorem c6_witness :
    (∃ s1, start_active_conn s_ipb k1 = some s1 ∧
      afind s1.conns 5 = some
        { addr := k1, mode := ConnMode.active,
          peer_id := { ip := k1.ip, port := 0 }, ev_timeout := none }) ∧
    check_new_conn c6_state 0 9 1 = none :=
  ⟨(c6_ip_based_identities.1 s_ipb k1 (mkPeer k1 none)
      (by decide) (by decide) (by decide)),
   c6_ip_based_identities.2 c6_state 0 9 1
     { addr := { ip := 3, port := 7 }, mode := ConnMode.passive,
       peer_id := { ip := 0, port := 0 }, ev_timeout := some (some 180) }
     (by decide) (by decide) (by decide)⟩

theorem on_read_loop_checksums (ck : List Nat → Nat) :
    ∀ (st : MsgState) (m : Msg) (buf : List Nat) (d : Msg),
      d ∈ (on_read_loop ck st m buf).2.2.2 → ck d.payload = d.checksum := by
  intro st m buf
  induction st, m, buf using on_read_loop.induct ck with
  | case1 m buf hlt =>
    intro d hd
    rw [on_read_loop.eq_1, dif_pos hlt] at hd
    simp at hd
  | case2 m buf hlt ih =>
    intro d hd
    rw [on_read_loop.eq_1, dif_neg hlt] at hd
    exact ih d hd
  | case3 m buf hlt =>
    intro d hd
    rw [on_read_loop.eq_2, dif_pos hlt] at hd
    simp at hd
  | case4 m buf hlt msgv hck =>
    intro d hd
    rw [on_read_loop.eq_2, dif_neg hlt] at hd
    simp only [] at hd
    rw [if_pos hck] at hd
    simp at hd
  | case5 m buf hlt msgv restv hck ih =>
    intro d hd
    have hck2 := of_not_not hck
    rw [on_read_loop.eq_2, dif_neg hlt] at hd
    simp only [] at hd
    rw [if_neg hck] at hd
    simp only [List.mem_cons] at hd
    rcases hd with hd | hd
    · subst hd
      exact hck2
    · exact ih d hd

theorem on_read_fuel_spec (ck : List Nat → Nat) :
    ∀ (st : MsgState) (m : Msg) (buf : List Nat) (fuel : Nat),
      buf.length + (match st with | MsgState.header => 2 | MsgState.payload => 3) ≤ fuel →
      on_read_fuel ck fuel st m buf = on_read_loop ck st m buf := by
  intro st m buf
  induction st, m, buf using on_read_loop.induct ck with
  | case1 m buf hlt =>
    intro fuel hf
    match fuel with
    | fuel + 1 =>
      rw [on_read_loop.eq_1, dif_pos hlt]
      unfold on_read_fuel
      rw [if_pos hlt]
  | case2 m buf hlt ih =>
    intro fuel hf
    match fuel with
    | fuel + 1 =>
      rw [on_read_loop.eq_1, dif_neg hlt]
      unfold on_read_fuel
      rw [if_neg hlt]
      apply ih
      simp only [List.length_drop, header_size] at *
      omega
  | case3 m buf hlt =>
    intro fuel hf
    match fuel with
    | fuel + 1 =>
      rw [on_read_loop.eq_2, dif_pos hlt]
      unfold on_read_fuel
      rw [if_pos hlt]
  | case4 m buf hlt msgv hck =>
    intro fuel hf
    match fuel with
    | fuel + 1 =>
      rw [on_read_loop.eq_2, dif_neg hlt]
      unfold on_read_fuel
      rw [if_neg hlt]
      simp only []
      rw [if_pos hck, if_pos hck]
  | case5 m buf hlt msgv restv hck ih =>
    intro fuel hf
    match fuel with
    | fuel + 1 =>
      rw [on_read_loop.eq_2, dif_neg hlt]
      unfold on_read_fuel
      rw [if_neg hlt]
      simp only []
      rw [if_neg hck, if_neg hck]
      have hrec : on_read_fuel ck fuel MsgState.header
          { m with payload := buf.take m.length } (buf.drop m.length) =
          on_read_loop ck MsgState.header
          { m with payload := buf.take m.length } (buf.drop m.length) := by
        apply ih
        show (buf.drop m.length).length + 2 ≤ fuel
        simp only [List.length_drop]
        have hf2 : buf.length + 3 ≤ fuel + 1 := hf
        omega
      rw [hrec]

/-- Claim C5: (1) a frame whose recomputed checksum differs from the header
checksum is never delivered to any handler — every message `on_read` emits
satisfies the checksum; (2) `on_read` leaves the connection's mode untouched
(it never terminates the connection, so it stays non-DEAD); (3) on a buffer
holding a good frame, a corrupted frame and a further good frame, the first
`on_read` delivers only the first good frame, leaves the connection in
HEADER state with the rest buffered, and a later `on_read` delivers the
message after the corruption. -/
theorem c5_checksum_drop :
    (∀ (ck : List Nat → Nat) (c : MConn) (d : Msg),
      d ∈ (MConn.on_read ck c).2 → ck d.payload = d.checksum) ∧
    (∀ (ck : List Nat → Nat) (c : MConn), ((MConn.on_read ck c).1).mode = c.mode) ∧
    (ck0 c5_bad.payload ≠ c5_bad.checksum ∧
     (MConn.on_read ck0 c5_conn0).2 = [c5_f1] ∧
     ((MConn.on_read ck0 c5_conn0).1).recv_buffer = c5_f2.serialize ∧
     ((MConn.on_read ck0 c5_conn0).1).msg_state = MsgState.header ∧
     ((MConn.on_read ck0 c5_conn0).1).mode = ConnMode.passive ∧
     (MConn.on_read ck0 ((MConn.on_read ck0 c5_conn0).1)).2 = [c5_f2]) := by
  have h1 : on_read_loop ck0 MsgState.header c5_conn0.msg c5_conn0.recv_buffer =
      (MsgState.header, c5_bad, c5_f2.serialize, [c5_f1]) := by
    rw [← on_read_fuel_spec ck0 MsgState.header c5_conn0.msg c5_conn0.recv_buffer 40 (by decide)]
    decide
  have hc1 : (MConn.on_read ck0 c5_conn0).1 =
      { mode := ConnMode.passive, msg_state := MsgState.header, msg := c5_bad,
        recv_buffer := c5_f2.serialize } := by
    show ({ c5_conn0 with
      msg_state := (on_read_loop ck0 c5_conn0.msg_state c5_conn0.msg c5_conn0.recv_buffer).1,
      msg := (on_read_loop ck0 c5_conn0.msg_state c5_conn0.msg c5_conn0.recv_buffer).2.1,
      recv_buffer :=
        (on_read_loop ck0 c5_conn0.msg_state c5_conn0.msg c5_conn0.recv_buffer).2.2.1 } : MConn) = _
    rw [show c5_conn0.msg_state = MsgState.header from rfl, h1]
    rfl
  have h2 : on_read_loop ck0 MsgState.header c5_bad c5_f2.serialize =
      (MsgState.header, c5_f2, [], [c5_f2]) := by
    rw [← on_read_fuel_spec ck0 MsgState.header c5_bad c5_f2.serialize 40 (by decide)]
    decide
  refine ⟨?_, ?_, by decide, ?_, ?_, ?_, ?_, ?_⟩
  · intro ck c d hd
    exact on_read_loop_checksums ck c.msg_state c.msg c.recv_buffer d hd
  · intro ck c
    rfl
  · show (on_read_loop ck0 c5_conn0.msg_state c5_conn0.msg c5_conn0.recv_buffer).2.2.2 = _
    rw [show c5_conn0.msg_state = MsgState.header from rfl, h1]
  · rw [hc1]
  · rw [hc1]
  · rw [hc1]
  · rw [hc1]
    show (on_read_loop ck0 MsgState.header c5_bad c5_f2.serialize).2.2.2 = _
    rw [h2]

theorem c5_witness : ck0 c5_f1.payload = c5_f1.checksum :=
  c5_checksum_drop.1 ck0 c5_conn0 c5_f1 (by
    show c5_f1 ∈
      (on_read_loop ck0 c5_conn0.msg_state c5_conn0.msg c5_conn0.recv_buffer).2.2.2
    rw [← on_read_fuel_spec ck0 c5_conn0.msg_state c5_conn0.msg c5_conn0.recv_buffer 40
      (by decide)]
    decide)

/-! ### Keepalive lemmas (for claim C3)

The two dispatcher events that can execute `Peer::send_ping` on an
established peer are the ping-timer callback and a PONG arrival.  The lemmas
below characterize each event's effect on the peer's two handshake flags and
on the `sent` log, and show that the established-peer invariant `KInv` is
preserved. -/

theorem get_peer_of_kp (s : PNState) (k : NetAddr) (p : Peer)
    (hp : afind s.id2peer k = some p) : get_peer s k = some p := by
  unfold get_peer
  rw [hp]

theorem afind_update_peer_self (s : PNState) (k : NetAddr) (p0 p : Peer)
    (hp : afind s.id2peer k = some p0) :
    afind (update_peer s k p).id2peer k = some p := by
  rw [update_peer_of_kp s k p (by rw [hp]; rfl)]
  exact afind_aset_self _ _ _ (by rw [hp]; rfl)

theorem update_peer_id2upeer_of_kp (s : PNState) (k : NetAddr) (p : Peer)
    (h : (afind s.id2peer k).isSome) :
    (update_peer s k p).id2upeer = s.id2upeer := by
  rw [update_peer_of_kp s k p h]

theorem get_peer_eq_of_tables (s1 s2 : PNState) (k : NetAddr)
    (h1 : s1.id2peer = s2.id2peer) (h2 : s1.id2upeer = s2.id2upeer) :
    get_peer s1 k = get_peer s2 k := by
  unfold get_peer
  rw [h1, h2]

theorem get_peer_override (s : PNState) (conns2 : List (ConnId × ConnState))
    (sent2 : List (SentMsg × ConnId)) (k : NetAddr) :
    get_peer { s with conns := conns2, sent := sent2 } k = get_peer s k := rfl

theorem check_new_conn_established (s : PNState) (k : NetAddr) (cid : ConnId)
    (port : Nat) (r : Rat) (hInv : KInv s k cid) :
    check_new_conn s cid port r = some (s, false) := by
  obtain ⟨hnull, ⟨p, hp, hcon, hpc⟩, ⟨c, u, hc, hcid, hmode, hto⟩⟩ := hInv
  rw [check_new_conn_eq_of_not_null s cid port r c p hc (by rw [hcid]; exact hnull)
    (by rw [hcid]; exact hp)]
  exact check_new_conn_resolved_bound _ _ _ _ _ _ hcon hpc

theorem resend_established (s : PNState) (k : NetAddr) (cid : ConnId) (r : Rat)
    (p : Peer) (c : ConnState) (u : Option Rat)
    (hp : afind s.id2peer k = some p) (hpc : p.conn = some cid)
    (hc : afind s.conns cid = some c) (hu : c.ev_timeout = some u) :
    (reset_ping_timer s k r).bind (fun x => send_ping x k) =
      some { (update_peer (update_peer s k { p with ev_ping_timer := some r }) k { p with ev_ping_timer := some r, ping_timer_ok := false, pong_msg_ok := false }) with conns := aset s.conns cid { c with ev_timeout := some (some s.conn_timeout) }, sent := (SentMsg.ping s.listen_port, cid) :: s.sent } := by
  have h1 : reset_ping_timer s k r = some (update_peer s k { p with ev_ping_timer := some r }) := by
    unfold reset_ping_timer
    rw [get_peer_of_kp s k p hp]
  rw [h1, Option.some_bind]
  unfold send_ping
  rw [get_peer_update_self s k p { p with ev_ping_timer := some r } (get_peer_of_kp s k p hp)]
  simp only [hpc]
  rw [tcall_reset_timeout_eq _ cid _ c u (by rw [update_peer_conns, update_peer_conns]; exact hc) hu]
  simp only [update_peer_conns, update_peer_conn_timeout, update_peer_sent, update_peer_listen_port]

theorem ping_timer_step (s : PNState) (k : NetAddr) (cid : ConnId) (r : Rat) (p : Peer)
    (hInv : KInv s k cid) (hp : afind s.id2peer k = some p) :
    ∃ s2 p2, ping_timer s k r = some s2 ∧ KInv s2 k cid ∧
      afind s2.id2peer k = some p2 ∧
      (if p.pong_msg_ok then
        p2.ping_timer_ok = false ∧ p2.pong_msg_ok = false ∧
          s2.sent.length = s.sent.length + 1
       else
        p2.ping_timer_ok = true ∧ p2.pong_msg_ok = p.pong_msg_ok ∧
          s2.sent = s.sent) := by
  obtain ⟨hnull, ⟨p0, hp0, hcon0, hpc0⟩, ⟨c, u, hc, hcid, hmode, hto⟩⟩ := hInv
  have hpe : p = p0 := by
    rw [hp] at hp0
    exact Option.some.inj hp0
  subst hpe
  have hred : ping_timer s k r = (if p.pong_msg_ok then (reset_ping_timer (update_peer s k { p with ping_timer_ok := true }) k r).bind (fun s2 => send_ping s2 k) else some (update_peer s k { p with ping_timer_ok := true })) := by
    unfold ping_timer
    rw [get_peer_of_kp s k p hp]
  by_cases hpo : p.pong_msg_ok = true
  · rw [hred, if_pos hpo]
    have hp1 : afind (update_peer s k { p with ping_timer_ok := true }).id2peer k = some { p with ping_timer_ok := true } := afind_update_peer_self s k p _ hp
    rw [resend_established _ k cid r { p with ping_timer_ok := true } c u hp1 hpc0 (by rw [update_peer_conns]; exact hc) hto]
    simp only [update_peer_conns, update_peer_conn_timeout, update_peer_sent, update_peer_listen_port]
    refine ⟨_, { p with ping_timer_ok := false, pong_msg_ok := false, ev_ping_timer := some r }, rfl, ?_, ?_, ?_⟩
    · refine ⟨hnull, ⟨{ p with ping_timer_ok := false, pong_msg_ok := false, ev_ping_timer := some r }, ?_, hcon0, hpc0⟩, ⟨{ c with ev_timeout := some (some s.conn_timeout) }, some s.conn_timeout, ?_, hcid, hmode, rfl⟩⟩
      · show afind (update_peer (update_peer (update_peer s k _) k _) k _).id2peer k = _
        exact afind_update_peer_self _ k _ _ (afind_update_peer_self _ k _ _ hp1)
      · show afind (aset s.conns cid _) cid = _
        exact afind_aset_self _ _ _ (by rw [hc]; rfl)
    · show afind (update_peer (update_peer (update_peer s k _) k _) k _).id2peer k = _
      exact afind_update_peer_self _ k _ _ (afind_update_peer_self _ k _ _ hp1)
    · rw [if_pos hpo]
      exact ⟨rfl, rfl, rfl⟩
  · rw [hred, if_neg hpo]
    refine ⟨_, { p with ping_timer_ok := true }, rfl, ?_, afind_update_peer_self s k p _ hp, ?_⟩
    · exact ⟨hnull, ⟨{ p with ping_timer_ok := true }, afind_update_peer_self s k p _ hp, hcon0, hpc0⟩, ⟨c, u, by rw [update_peer_conns]; exact hc, hcid, hmode, hto⟩⟩
    · rw [if_neg hpo]
      exact ⟨rfl, rfl, update_peer_sent s k _⟩

theorem msg_pong_step (s : PNState) (k : NetAddr) (cid : ConnId) (port : Nat) (r : Rat)
    (p : Peer) (hInv : KInv s k cid) (hp : afind s.id2peer k = some p) :
    ∃ s2 p2, msg_pong s cid port r = some s2 ∧ KInv s2 k cid ∧
      afind s2.id2peer k = some p2 ∧
      (if p.ping_timer_ok then
        p2.ping_timer_ok = false ∧ p2.pong_msg_ok = false ∧
          s2.sent.length = s.sent.length + 1
       else
        p2.ping_timer_ok = p.ping_timer_ok ∧ p2.pong_msg_ok = true ∧
          s2.sent = s.sent) := by
  obtain ⟨hnull, ⟨p0, hp0, hcon0, hpc0⟩, ⟨c, u, hc, hcid, hmode, hto⟩⟩ := hInv
  have hpe : p = p0 := by
    rw [hp] at hp0
    exact Option.some.inj hp0
  subst hpe
  have hKInv : KInv s k cid := ⟨hnull, ⟨p, hp, hcon0, hpc0⟩, ⟨c, u, hc, hcid, hmode, hto⟩⟩
  have hred : msg_pong s cid port r = (if p.ping_timer_ok then (reset_ping_timer (update_peer s k { p with pong_msg_ok := true }) k r).bind (fun s4 => send_ping s4 k) else some (update_peer s k { p with pong_msg_ok := true })) := by
    unfold msg_pong
    simp only [hc]
    rw [if_neg hmode]
    simp only [hcid, get_peer_of_kp s k p hp, check_new_conn_established s k cid port r hKInv]
  by_cases hpo : p.ping_timer_ok = true
  · rw [hred, if_pos hpo]
    have hp1 : afind (update_peer s k { p with pong_msg_ok := true }).id2peer k = some { p with pong_msg_ok := true } := afind_update_peer_self s k p _ hp
    rw [resend_established _ k cid r { p with pong_msg_ok := true } c u hp1 hpc0 (by rw [update_peer_conns]; exact hc) hto]
    simp only [update_peer_conns, update_peer_conn_timeout, update_peer_sent, update_peer_listen_port]
    refine ⟨_, { p with ping_timer_ok := false, pong_msg_ok := false, ev_ping_timer := some r }, rfl, ?_, ?_, ?_⟩
    · refine ⟨hnull, ⟨{ p with ping_timer_ok := false, pong_msg_ok := false, ev_ping_timer := some r }, ?_, hcon0, hpc0⟩, ⟨{ c with ev_timeout := some (some s.conn_timeout) }, some s.conn_timeout, ?_, hcid, hmode, rfl⟩⟩
      · show afind (update_peer (update_peer (update_peer s k _) k _) k _).id2peer k = _
        exact afind_update_peer_self _ k _ _ (afind_update_peer_self _ k _ _ hp1)
      · show afind (aset s.conns cid _) cid = _
        exact afind_aset_self _ _ _ (by rw [hc]; rfl)
    · show afind (update_peer (update_peer (update_peer s k _) k _) k _).id2peer k = _
      exact afind_update_peer_self _ k _ _ (afind_update_peer_self _ k _ _ hp1)
    · rw [if_pos hpo]
      exact ⟨rfl, rfl, rfl⟩
  · rw [hred, if_neg hpo]
    refine ⟨_, { p with pong_msg_ok := true }, rfl, ?_, afind_update_peer_self s k p _ hp, ?_⟩
    · exact ⟨hnull, ⟨{ p with pong_msg_ok := true }, afind_update_peer_self s k p _ hp, hcon0, hpc0⟩, ⟨c, u, by rw [update_peer_conns]; exact hc, hcid, hmode, hto⟩⟩
    · rw [if_neg hpo]
      exact ⟨rfl, rfl, update_peer_sent s k _⟩

theorem kstep_char (s : PNState) (k : NetAddr) (cid : ConnId) (e : KEvent) (p : Peer)
    (hInv : KInv s k cid) (hp : afind s.id2peer k = some p) :
    ∃ s2 p2, kstep k cid s e = some s2 ∧ KInv s2 k cid ∧
      afind s2.id2peer k = some p2 ∧
      (if KEvent.trigger e p then
        p2.ping_timer_ok = false ∧ p2.pong_msg_ok = false ∧
          s2.sent.length = s.sent.length + 1
       else
        p2.ping_timer_ok = (p.ping_timer_ok || KEvent.is_timer e) ∧
        p2.pong_msg_ok = (p.pong_msg_ok || KEvent.is_pong e) ∧
        s2.sent = s.sent) := by
  cases e with
  | timer_fire r =>
    obtain ⟨s2, p2, hstep, hInv2, hp2, hcond⟩ := ping_timer_step s k cid r p hInv hp
    refine ⟨s2, p2, hstep, hInv2, hp2, ?_⟩
    simp only [KEvent.trigger, KEvent.is_timer, KEvent.is_pong]
    by_cases hb : p.pong_msg_ok = true
    · rw [if_pos hb] at hcond ⊢
      exact hcond
    · rw [if_neg hb] at hcond ⊢
      obtain ⟨h1, h2, h3⟩ := hcond
      exact ⟨by rw [h1]; simp, by rw [h2]; simp, h3⟩
  | pong_recv port r =>
    obtain ⟨s2, p2, hstep, hInv2, hp2, hcond⟩ := msg_pong_step s k cid port r p hInv hp
    refine ⟨s2, p2, hstep, hInv2, hp2, ?_⟩
    simp only [KEvent.trigger, KEvent.is_timer, KEvent.is_pong]
    by_cases hb : p.ping_timer_ok = true
    · rw [if_pos hb] at hcond ⊢
      exact hcond
    · rw [if_neg hb] at hcond ⊢
      obtain ⟨h1, h2, h3⟩ := hcond
      exact ⟨by rw [h1]; simp, by rw [h2]; simp, h3⟩

theorem kstep_send (s : PNState) (k : NetAddr) (cid : ConnId) (e : KEvent) (p : Peer)
    (s2 : PNState) (hInv : KInv s k cid) (hp : afind s.id2peer k = some p)
    (hstep : kstep k cid s e = some s2) (hgrow : s.sent.length < s2.sent.length) :
    (KEvent.is_timer e = true → p.pong_msg_ok = true) ∧
    (KEvent.is_pong e = true → p.ping_timer_ok = true) ∧
    ∃ p2, afind s2.id2peer k = some p2 ∧ p2.ping_timer_ok = false ∧
      p2.pong_msg_ok = false ∧ KInv s2 k cid := by
  obtain ⟨s2', p2, hstep', hInv2, hp2, hcond⟩ := kstep_char s k cid e p hInv hp
  rw [hstep] at hstep'
  have hs : s2' = s2 := (Option.some.inj hstep').symm
  subst hs
  cases e with
  | timer_fire r =>
    simp only [KEvent.trigger, KEvent.is_timer, KEvent.is_pong] at hcond
    by_cases hb : p.pong_msg_ok = true
    · rw [if_pos hb] at hcond
      exact ⟨fun _ => hb, fun habs => by simp [KEvent.is_pong] at habs,
        p2, hp2, hcond.1, hcond.2.1, hInv2⟩
    · rw [if_neg hb] at hcond
      rw [hcond.2.2] at hgrow
      exact absurd hgrow (by omega)
  | pong_recv port r =>
    simp only [KEvent.trigger, KEvent.is_timer, KEvent.is_pong] at hcond
    by_cases hb : p.ping_timer_ok = true
    · rw [if_pos hb] at hcond
      exact ⟨fun habs => by simp [KEvent.is_timer] at habs, fun _ => hb,
        p2, hp2, hcond.1, hcond.2.1, hInv2⟩
    · rw [if_neg hb] at hcond
      rw [hcond.2.2] at hgrow
      exact absurd hgrow (by omega)

theorem krun_no_send (k : NetAddr) (cid : ConnId) :
    ∀ (evs : List KEvent) (s : PNState) (p : Peer) (s' : PNState) (bs : List Bool),
      KInv s k cid → afind s.id2peer k = some p →
      krun k cid s evs = some (s', bs) → true ∉ bs →
      ∃ p', afind s'.id2peer k = some p' ∧ KInv s' k cid ∧
        p'.ping_timer_ok = (p.ping_timer_ok || evs.any KEvent.is_timer) ∧
        p'.pong_msg_ok = (p.pong_msg_ok || evs.any KEvent.is_pong) := by
  intro evs
  induction evs with
  | nil =>
    intro s p s' bs hInv hp hrun hns
    unfold krun at hrun
    simp only [Option.some.injEq, Prod.mk.injEq] at hrun
    obtain ⟨hs, hbs⟩ := hrun
    subst hs
    exact ⟨p, hp, hInv, by simp, by simp⟩
  | cons e rest ih =>
    intro s p s' bs hInv hp hrun hns
    obtain ⟨s2, p2, hstep, hInv2, hp2, hcond⟩ := kstep_char s k cid e p hInv hp
    unfold krun at hrun
    simp only [hstep] at hrun
    cases hrest : krun k cid s2 rest with
    | none =>
      simp only [hrest] at hrun
      exact Option.noConfusion hrun
    | some pair =>
      obtain ⟨s3, bs'⟩ := pair
      simp only [hrest] at hrun
      simp only [Option.some.injEq, Prod.mk.injEq] at hrun
      obtain ⟨hs3, hbs⟩ := hrun
      subst hs3
      subst hbs
      simp only [List.mem_cons, not_or] at hns
      obtain ⟨hmark, hns'⟩ := hns
      have hnogrow : ¬ s.sent.length < s2.sent.length := by
        intro habs
        apply hmark
        simp [habs]
      by_cases htrig : KEvent.trigger e p = true
      · rw [if_pos htrig] at hcond
        obtain ⟨_, _, hlen⟩ := hcond
        exact absurd (by omega) hnogrow
      · rw [if_neg htrig] at hcond
        obtain ⟨hf1, hf2, _⟩ := hcond
        obtain ⟨p', hp', hInv', hg1, hg2⟩ := ih s2 p2 s3 bs' hInv2 hp2 hrest hns'
        refine ⟨p', hp', hInv', ?_, ?_⟩
        · rw [hg1, hf1, List.any_cons, Bool.or_assoc]
        · rw [hg2, hf2, List.any_cons, Bool.or_assoc]

theorem krun_inv (k : NetAddr) (cid : ConnId) :
    ∀ (evs : List KEvent) (s : PNState) (p : Peer) (s' : PNState) (bs : List Bool),
      KInv s k cid → afind s.id2peer k = some p →
      krun k cid s evs = some (s', bs) →
      KInv s' k cid ∧ ∃ p', afind s'.id2peer k = some p' := by
  intro evs
  induction evs with
  | nil =>
    intro s p s' bs hInv hp hrun
    unfold krun at hrun
    simp only [Option.some.injEq, Prod.mk.injEq] at hrun
    obtain ⟨hs, _⟩ := hrun
    subst hs
    exact ⟨hInv, p, hp⟩
  | cons e rest ih =>
    intro s p s' bs hInv hp hrun
    obtain ⟨s2, p2, hstep, hInv2, hp2, _⟩ := kstep_char s k cid e p hInv hp
    unfold krun at hrun
    simp only [hstep] at hrun
    cases hrest : krun k cid s2 rest with
    | none =>
      simp only [hrest] at hrun
      exact Option.noConfusion hrun
    | some pair =>
      obtain ⟨s3, bs'⟩ := pair
      simp only [hrest] at hrun
      simp only [Option.some.injEq, Prod.mk.injEq] at hrun
      obtain ⟨hs3, _⟩ := hrun
      subst hs3
      exact ih s2 p2 s3 bs' hInv2 hp2 hrest

theorem krun_append (k : NetAddr) (cid : ConnId) :
    ∀ (l1 l2 : List KEvent) (s : PNState),
      krun k cid s (l1 ++ l2) =
        (krun k cid s l1).bind (fun x =>
          (krun k cid x.1 l2).map (fun y => (y.1, x.2 ++ y.2))) := by
  intro l1
  induction l1 with
  | nil =>
    intro l2 s
    show krun k cid s l2 = _
    rw [show krun k cid s [] = some (s, []) from rfl, Option.some_bind]
    cases h : krun k cid s l2 with
    | none => rfl
    | some y => simp
  | cons e l1 ih =>
    intro l2 s
    cases hstep : kstep k cid s e with
    | none =>
      rw [show krun k cid s ((e :: l1) ++ l2) = none from by
            show krun k cid s (e :: (l1 ++ l2)) = none
            conv_lhs => unfold krun
            rw [hstep],
          show krun k cid s (e :: l1) = none from by conv_lhs => unfold krun
                                                     rw [hstep]]
      rfl
    | some s2 =>
      have hL : krun k cid s ((e :: l1) ++ l2) =
          (match krun k cid s2 (l1 ++ l2) with
           | none => none
           | some x => some (x.1, decide (s.sent.length < s2.sent.length) :: x.2)) := by
        show krun k cid s (e :: (l1 ++ l2)) = _
        conv_lhs => unfold krun
        rw [hstep]
        show (match krun k cid s2 (l1 ++ l2) with
          | none => none
          | some (s3, bs) => some (s3, decide (s.sent.length < s2.sent.length) :: bs)) = _
        cases krun k cid s2 (l1 ++ l2) with
        | none => rfl
        | some x =>
          obtain ⟨s3, bs⟩ := x
          rfl
      have hR : krun k cid s (e :: l1) =
          (match krun k cid s2 l1 with
           | none => none
           | some x => some (x.1, decide (s.sent.length < s2.sent.length) :: x.2)) := by
        conv_lhs => unfold krun
        rw [hstep]
        show (match krun k cid s2 l1 with
          | none => none
          | some (s3, bs) => some (s3, decide (s.sent.length < s2.sent.length) :: bs)) = _
        cases krun k cid s2 l1 with
        | none => rfl
        | some x =>
          obtain ⟨s3, bs⟩ := x
          rfl
      rw [hL, hR, ih l2 s2]
      cases h1 : krun k cid s2 l1 with
      | none => rfl
      | some x =>
        cases h2 : krun k cid x.1 l2 with
        | none => simp [h2]
        | some y => simp [h2]

theorem krun_length (k : NetAddr) (cid : ConnId) :
    ∀ (evs : List KEvent) (s : PNState) (s' : PNState) (bs : List Bool),
      krun k cid s evs = some (s', bs) → bs.length = evs.length := by
  intro evs
  induction evs with
  | nil =>
    intro s s' bs hrun
    unfold krun at hrun
    simp only [Option.some.injEq, Prod.mk.injEq] at hrun
    rw [← hrun.2]
    rfl
  | cons e rest ih =>
    intro s s' bs hrun
    unfold krun at hrun
    cases hstep : kstep k cid s e with
    | none =>
      simp only [hstep] at hrun
      exact Option.noConfusion hrun
    | some s2 =>
      simp only [hstep] at hrun
      cases hrest : krun k cid s2 rest with
      | none =>
        simp only [hrest] at hrun
        exact Option.noConfusion hrun
      | some pair =>
        obtain ⟨s3, bs'⟩ := pair
        simp only [hrest] at hrun
        simp only [Option.some.injEq, Prod.mk.injEq] at hrun
        rw [← hrun.2]
        simp [ih s2 s3 bs' hrest]

/-- Claim C3: (1) `send_ping` clears both handshake flags, re-arms the bound
connection's `ev_timeout` to `conn_timeout`, and hands `MsgPing(listen_port)`
to `send_msg`; (2) on an established peer, between any two consecutive
executions of `send_ping` by the keepalive machine (ping-timer callbacks and
PONG arrivals), at least one ping-timer firing and at least one PONG arrival
occur — a second ping never flies while either flag of the current cycle is
still false.  Sends are observed as growth of the `sent` log (`true` markers
in the run). -/
theorem c3_keepalive_cycle :
    (∀ (s : PNState) (k : NetAddr) (p : Peer) (cid : ConnId) (c : ConnState) (u : Option Rat),
      get_peer s k = some p → p.conn = some cid →
      afind s.conns cid = some c → c.ev_timeout = some u →
      ∃ s1, send_ping s k = some s1 ∧
        get_peer s1 k = some { p with ping_timer_ok := false, pong_msg_ok := false } ∧
        (∃ c1, afind s1.conns cid = some c1 ∧
          c1.ev_timeout = some (some s.conn_timeout)) ∧
        s1.sent = (SentMsg.ping s.listen_port, cid) :: s.sent) ∧
    (∀ (s : PNState) (k : NetAddr) (cid : ConnId) (e1 e2 e3 : List KEvent) (x y : KEvent)
       (b1 b2 b3 : List Bool),
      KInv s k cid →
      (krun k cid s (e1 ++ x :: (e2 ++ y :: e3))).map Prod.snd =
        some (b1 ++ true :: (b2 ++ true :: b3)) →
      e1.length = b1.length → e2.length = b2.length → true ∉ b2 →
      (∃ e ∈ e2 ++ [y], KEvent.is_timer e = true) ∧
      (∃ e ∈ e2 ++ [y], KEvent.is_pong e = true)) := by
  constructor
  · intro s k p cid c u hg hpc hc hu
    unfold send_ping
    simp only [hg, hpc]
    rw [tcall_reset_timeout_eq _ cid s.conn_timeout c u (by rw [update_peer_conns]; exact hc) hu]
    refine ⟨_, rfl, ?_, ?_, ?_⟩
    · rw [get_peer_override, get_peer_override, get_peer_update_self s k p _ hg, ← hpc]
    · refine ⟨{ c with ev_timeout := some (some s.conn_timeout) }, ?_, rfl⟩
      simp only [update_peer_conns]
      exact afind_aset_self _ _ _ (by rw [hc]; rfl)
    · simp only [update_peer_listen_port, update_peer_sent]
  · intro s k cid e1 e2 e3 x y b1 b2 b3 hInv hrun hlen1 hlen2 hns2
    have hInv' := hInv
    obtain ⟨-, ⟨p, hp, -, -⟩, -⟩ := hInv'
    cases hr : krun k cid s (e1 ++ x :: (e2 ++ y :: e3)) with
    | none =>
      rw [hr] at hrun
      exact Option.noConfusion hrun
    | some pair =>
      obtain ⟨sfin, bsfin⟩ := pair
      rw [hr] at hrun
      simp only [Option.map_some', Option.some.injEq] at hrun
      rw [krun_append] at hr
      cases hA : krun k cid s e1 with
      | none =>
        rw [hA] at hr
        exact Option.noConfusion hr
      | some a =>
        obtain ⟨sA, bsA⟩ := a
        rw [hA, Option.some_bind] at hr
        cases hB : krun k cid sA (x :: (e2 ++ y :: e3)) with
        | none =>
          rw [hB] at hr
          exact Option.noConfusion hr
        | some b =>
          obtain ⟨sB0, bsB0⟩ := b
          rw [hB] at hr
          simp only [Option.map_some', Option.some.injEq, Prod.mk.injEq] at hr
          obtain ⟨hrs, hrb⟩ := hr
          -- align the markers of e1 with b1
          have hlenA : bsA.length = b1.length := by
            rw [krun_length k cid e1 s sA bsA hA, hlen1]
          rw [← hrb] at hrun
          obtain ⟨hb1, hbrest⟩ := List.append_inj hrun hlenA
          -- the invariant holds when x is reached
          obtain ⟨hInvA, pA, hpA⟩ := krun_inv k cid e1 s p sA bsA hInv hp hA
          -- step x: it executed send_ping, so both flags are cleared
          unfold krun at hB
          cases hX : kstep k cid sA x with
          | none =>
            simp only [hX] at hB
            exact Option.noConfusion hB
          | some sB =>
            simp only [hX] at hB
            cases hC : krun k cid sB (e2 ++ y :: e3) with
            | none =>
              simp only [hC] at hB
              exact Option.noConfusion hB
            | some cpair =>
              obtain ⟨sC, bsC⟩ := cpair
              simp only [hC, Option.some.injEq, Prod.mk.injEq] at hB
              obtain ⟨hBs, hBb⟩ := hB
              rw [← hBb] at hbrest
              have hmx : decide (sA.sent.length < sB.sent.length) = true := by
                have := List.head_eq_of_cons_eq hbrest
                rw [this]
              have hgrowx : sA.sent.length < sB.sent.length := of_decide_eq_true hmx
              obtain ⟨-, -, pB, hpB, hpBf1, hpBf2, hInvB⟩ :=
                kstep_send sA k cid x pA sB hInvA hpA hX hgrowx
              have hrest2 : bsC = b2 ++ true :: b3 := List.tail_eq_of_cons_eq hbrest
              -- run e2 with no send in between
              rw [krun_append] at hC
              cases hD : krun k cid sB e2 with
              | none =>
                rw [hD] at hC
                exact Option.noConfusion hC
              | some d =>
                obtain ⟨sD, bsD⟩ := d
                rw [hD, Option.some_bind] at hC
                cases hE : krun k cid sD (y :: e3) with
                | none =>
                  rw [hE] at hC
                  exact Option.noConfusion hC
                | some g =>
                  obtain ⟨sE0, bsE0⟩ := g
                  rw [hE] at hC
                  simp only [Option.map_some', Option.some.injEq, Prod.mk.injEq] at hC
                  obtain ⟨hCs, hCb⟩ := hC
                  have hlenD : bsD.length = b2.length := by
                    rw [krun_length k cid e2 sB sD bsD hD, hlen2]
                  rw [← hCb] at hrest2
                  obtain ⟨hb2, hb3⟩ := List.append_inj hrest2 hlenD
                  have hnsD : true ∉ bsD := by rw [hb2]; exact hns2
                  obtain ⟨pD, hpD, hInvD, hDf1, hDf2⟩ :=
                    krun_no_send k cid e2 sB pB sD bsD hInvB hpB hD hnsD
                  -- step y: it executed send_ping, so its gating flag was set
                  unfold krun at hE
                  cases hY : kstep k cid sD y with
                  | none =>
                    simp only [hY] at hE
                    exact Option.noConfusion hE
                  | some sE =>
                    simp only [hY] at hE
                    cases hF : krun k cid sE e3 with
                    | none =>
                      simp only [hF] at hE
                      exact Option.noConfusion hE
                    | some f =>
                      obtain ⟨sF, bsF⟩ := f
                      simp only [hF, Option.some.injEq, Prod.mk.injEq] at hE
                      obtain ⟨hEs, hEb⟩ := hE
                      have hmy : decide (sD.sent.length < sE.sent.length) = true := by
                        have := List.head_eq_of_cons_eq (hEb.trans hb3)
                        rw [this]
                      have hgrowy : sD.sent.length < sE.sent.length := of_decide_eq_true hmy
                      obtain ⟨hyt, hyp, -⟩ :=
                        kstep_send sD k cid y pD sE hInvD hpD hY hgrowy
                      cases y with
                      | timer_fire r =>
                        have hpong : pD.pong_msg_ok = true := hyt (by rfl)
                        rw [hDf2, hpBf2, Bool.false_or] at hpong
                        obtain ⟨e, he, hep⟩ := List.any_eq_true.mp hpong
                        refine ⟨⟨KEvent.timer_fire r, by simp, rfl⟩,
                          ⟨e, by simp [he], hep⟩⟩
                      | pong_recv port r =>
                        have hping : pD.ping_timer_ok = true := hyp (by rfl)
                        rw [hDf1, hpBf1, Bool.false_or] at hping
                        obtain ⟨e, he, het⟩ := List.any_eq_true.mp hping
                        refine ⟨⟨e, by simp [he], het⟩,
                          ⟨KEvent.pong_recv port r, by simp, rfl⟩⟩

theorem c3_witness :
    (∃ s1, send_ping s_est k1 = some s1 ∧
      get_peer s1 k1 = some { peer_est with ping_timer_ok := false, pong_msg_ok := false } ∧
      (∃ c1, afind s1.conns 0 = some c1 ∧
        c1.ev_timeout = some (some s_est.conn_timeout)) ∧
      s1.sent = (SentMsg.ping s_est.listen_port, 0) :: s_est.sent) ∧
    ((∃ e ∈ [KEvent.timer_fire 1] ++ [KEvent.pong_recv 2 1], KEvent.is_timer e = true) ∧
     (∃ e ∈ [KEvent.timer_fire 1] ++ [KEvent.pong_recv 2 1], KEvent.is_pong e = true)) :=
  ⟨c3_keepalive_cycle.1 s_est k1 peer_est 0 conn_est (some 180)
      (by decide) (by decide) (by decide) (by decide),
   c3_keepalive_cycle.2 s_est k1 0 [KEvent.timer_fire 1] [KEvent.timer_fire 1] []
      (KEvent.pong_recv 2 1) (KEvent.pong_recv 2 1) [false] [false] []
      ⟨by decide, ⟨peer_est, by decide, by decide, by decide⟩,
       ⟨conn_est, some 180, by decide, by decide, by decide, by decide⟩⟩
      (by decide) (by decide) (by decide) (by decide)⟩

end Salticidae
